import Mathlib

/-!
Verification of the NEET rank-prediction analytics pipeline.

Shallow embedding of the repository's core pipeline, translated from the
Python sources:
  - src/data/data_processor.py   (DataProcessor)
  - src/analysis/performance.py  (PerformanceAnalyzer)
  - src/analysis/insights.py     (InsightGenerator)
  - src/models/predictor.py      (RankPredictor)
  - src/models/student.py        (QuizSubmission, StudentPerformance)
  - src/utils/helpers.py, src/utils/constants.py

Modelling conventions:
  - Python floats are modelled by rationals; every numeric comparison in
    the pipeline is on values that are exact in both representations.
  - A Python float nan (np.mean of an empty list) is modelled by
    Option.none where it can occur.
  - Python exceptions are modelled by the PyErr sum type, fallible code
    returns Except PyErr.
  - Python dicts (string-keyed, insertion ordered) are association lists;
    assignment keeps the position of an existing key and appends a new
    one, exactly as Python 3.7+ dicts do.
  - datetime values are the components parsed by fromisoformat; their
    comparison key is a strictly monotone encoding of the component
    tuple (offsets are parsed but not folded into the key; every history
    handled by the claims carries a uniform offset).
-/

/-- Python exception classes reachable in the embedded code. -/
inductive PyErr
  | valueError (msg : String)
  | typeError (msg : String)
  | attributeError (attr : String)
deriving DecidableEq, Repr

/-- Python values that can appear in the raw submission fields the
pipeline reads with full generality (submitted_at, score). -/
inductive PyVal
  | pstr (s : String)
  | pint (n : Int)
  | pfloat (q : ℚ)
  | pnone
deriving DecidableEq, Repr

/-- A Python float: some rational, or none for nan. -/
abbrev PyFloat := Option ℚ

def isWS (c : Char) : Bool :=
  c == ' ' || c == '\t' || c == '\n' || c == '\r'

def natOfDigits (l : List Char) : Nat :=
  l.foldl (fun acc c => acc * 10 + (c.toNat - 48)) 0

/-- Exponent tail of a Python float literal: digits of `e[+-]digits`. -/
def expDigits (base : ℚ) (neg : Bool) (d : List Char) : Option ℚ :=
  if d.isEmpty || !(d.all Char.isDigit) then none
  else some (if neg then base / 10 ^ natOfDigits d else base * 10 ^ natOfDigits d)

/-- Optional `e`/`E` exponent suffix of a Python float literal. -/
def applyExp (base : ℚ) : List Char → Option ℚ
  | [] => some base
  | c :: r =>
    if c == 'e' || c == 'E' then
      match r with
      | '+' :: d => expDigits base false d
      | '-' :: d => expDigits base true d
      | d => expDigits base false d
    else none

/-- Body of a Python float literal after the optional sign:
`digits[.digits][exp]` or `.digits[exp]`. -/
def pyFloatBody (cs : List Char) : Option ℚ :=
  let ip := cs.takeWhile Char.isDigit
  let r1 := cs.dropWhile Char.isDigit
  match r1 with
  | [] => if ip.isEmpty then none else some ((natOfDigits ip : ℚ))
  | '.' :: r2 =>
    let fp := r2.takeWhile Char.isDigit
    let r3 := r2.dropWhile Char.isDigit
    if ip.isEmpty && fp.isEmpty then none
    else applyExp ((natOfDigits ip : ℚ) + (natOfDigits fp : ℚ) / (10 : ℚ) ^ fp.length) r3
  | _ => if ip.isEmpty then none else applyExp ((natOfDigits ip : ℚ)) r1

/-- Python `float(s)` on a string: strip whitespace, optional sign, body.
(The inf/nan/underscore literal forms, unused by this repository's data,
are not modelled.) Returns none where Python raises ValueError. -/
def pyFloatChars (cs : List Char) : Option ℚ :=
  let cs1 := ((cs.dropWhile isWS).reverse.dropWhile isWS).reverse
  match cs1 with
  | '+' :: r => pyFloatBody r
  | '-' :: r => (pyFloatBody r).map Neg.neg
  | r => pyFloatBody r

def pyFloatStr (s : String) : Option ℚ :=
  pyFloatChars s.data

/-- Python `s.strip(c)`: remove the character from both ends. -/
def stripCharBoth (c : Char) (s : String) : String :=
  String.mk (((s.data.dropWhile (· == c)).reverse.dropWhile (· == c)).reverse)

/-- Python `s.replace("Z", "+00:00")` as used on timestamps. -/
def replaceZChars : List Char → List Char
  | [] => []
  | c :: rest =>
    if c == 'Z' then '+' :: '0' :: '0' :: ':' :: '0' :: '0' :: replaceZChars rest
    else c :: replaceZChars rest

def replaceZ (s : String) : String :=
  String.mk (replaceZChars s.data)

/-- Python `float(v)` on an arbitrary value. -/
def pyFloatOfVal : PyVal → Except PyErr ℚ
  | .pstr s =>
    match pyFloatStr s with
    | some q => .ok q
    | none => .error (.valueError ("could not convert string to float: " ++ s))
  | .pint n => .ok ((n : ℚ))
  | .pfloat q => .ok q
  | .pnone => .error (.typeError "float argument must be a string or a real number")

/-- The components of a parsed datetime.  offsetMinutes is none for a
naive datetime, some o for an aware one. -/
structure Dt where
  year : Nat
  month : Nat
  day : Nat
  hour : Nat
  minute : Nat
  second : Nat
  offsetMinutes : Option Int
deriving DecidableEq, Repr

/-- Strictly monotone encoding of the component tuple; the sort key used
wherever the code compares datetimes. -/
def Dt.key (t : Dt) : Nat :=
  ((((t.year * 13 + t.month) * 32 + t.day) * 24 + t.hour) * 60 + t.minute) * 60 + t.second

def isLeap (y : Nat) : Bool :=
  (y % 4 == 0 && y % 100 != 0) || (y % 400 == 0)

def daysInMonth (y m : Nat) : Nat :=
  if m == 2 then (if isLeap y then 29 else 28)
  else if m == 4 || m == 6 || m == 9 || m == 11 then 30
  else 31

def d2 (a b : Char) : Option Nat :=
  if a.isDigit && b.isDigit then some (10 * (a.toNat - 48) + (b.toNat - 48)) else none

def d4 (a b c d : Char) : Option Nat :=
  if a.isDigit && b.isDigit && c.isDigit && d.isDigit then
    some (1000 * (a.toNat - 48) + 100 * (b.toNat - 48) + 10 * (c.toNat - 48) + (d.toNat - 48))
  else none

/-- Optional utc-offset suffix `[+-]HH:MM` of an isoformat string. -/
def parseOff : List Char → Option (Option Int)
  | [] => some Option.none
  | [sg, a, b, ':', c, d] =>
    if sg == '+' || sg == '-' then
      match d2 a b, d2 c d with
      | some oh, some om =>
        if oh ≤ 23 && om ≤ 59 then
          some (some (if sg == '+' then ((oh * 60 + om : Nat) : Int) else -((oh * 60 + om : Nat) : Int)))
        else Option.none
      | _, _ => Option.none
    else Option.none
  | _ => Option.none

/-- Time part `HH:MM[:SS][offset]` of an isoformat string. -/
def parseTime : List Char → Option (Nat × Nat × Nat × Option Int)
  | h1 :: h2 :: ':' :: m1 :: m2 :: rest =>
    match d2 h1 h2, d2 m1 m2 with
    | some hh, some mm =>
      if hh ≤ 23 && mm ≤ 59 then
        match rest with
        | ':' :: s1 :: s2 :: rest2 =>
          match d2 s1 s2 with
          | some ss =>
            if ss ≤ 59 then (parseOff rest2).map (fun o => (hh, mm, ss, o)) else none
          | none => none
        | other => (parseOff other).map (fun o => (hh, mm, 0, o))
      else none
    | _, _ => none
  | _ => none

/-- Python `datetime.fromisoformat`: `YYYY-MM-DD[<sep>HH:MM[:SS][+HH:MM]]`
with calendar validation.  (Fractional seconds, absent from this
repository's data, are not modelled.) -/
def fromisoformat (s : String) : Except PyErr Dt :=
  let bad : Except PyErr Dt := .error (.valueError ("Invalid isoformat string: " ++ s))
  match s.data with
  | [y1, y2, y3, y4, '-', m1, m2, '-', dd1, dd2] =>
    match d4 y1 y2 y3 y4, d2 m1 m2, d2 dd1 dd2 with
    | some y, some m, some d =>
      if 1 ≤ y && 1 ≤ m && m ≤ 12 && 1 ≤ d && d ≤ daysInMonth y m then
        .ok ⟨y, m, d, 0, 0, 0, Option.none⟩
      else bad
    | _, _, _ => bad
  | y1 :: y2 :: y3 :: y4 :: '-' :: m1 :: m2 :: '-' :: dd1 :: dd2 :: _sep :: timeRest =>
    match d4 y1 y2 y3 y4, d2 m1 m2, d2 dd1 dd2, parseTime timeRest with
    | some y, some m, some d, some (hh, mm, ss, off) =>
      if 1 ≤ y && 1 ≤ m && m ≤ 12 && 1 ≤ d && d ≤ daysInMonth y m then
        .ok ⟨y, m, d, hh, mm, ss, off⟩
      else bad
    | _, _, _, _ => bad
  | _ => bad

/-- src/models/student.py QuizSubmission.  The accuracy, speed and
final_score fields are strings, exactly as in the dataclass. -/
structure QuizSubmission where
  id : Int
  quiz_id : Int
  user_id : String
  submitted_at : Dt
  score : ℚ
  accuracy : String
  speed : String
  final_score : String
  correct_answers : Int
  incorrect_answers : Int
  total_questions : Int
  response_map : List (String × Int)
  topic : String
deriving DecidableEq, Repr

/-- src/models/student.py StudentPerformance.  The string-keyed dicts are
insertion-ordered association lists. -/
structure StudentPerformance where
  user_id : String
  quiz_history : List QuizSubmission
  topic_wise_accuracy : List (String × ℚ)
  weak_areas : List String
  improvement_trends : List (String × List ℚ)
  predicted_rank : Option Int
  recommended_colleges : Option (List String)
deriving DecidableEq, Repr

/-- A raw submission mapping.  Each field the code reads is optional
(absent key = none); submitted_at and score keep their full Python
dynamic type, the remaining fields carry the types the repository's data
actually holds.  quiz_topic is the nested raw.quiz dict restricted to
its topic entry: none = no quiz key, some none = quiz dict without a
topic key, some (some t) = quiz dict with topic t. -/
structure RawSubmission where
  id : Option Int
  quiz_id : Option Int
  user_id : Option String
  submitted_at : Option PyVal
  score : Option PyVal
  accuracy : Option String
  final_score : Option String
  speed : Option String
  correct_answers : Option Int
  incorrect_answers : Option Int
  total_questions : Option Int
  response_map : Option (List (String × Int))
  quiz_topic : Option (Option String)
deriving DecidableEq, Repr

/-- DataProcessor.required_fields. -/
def requiredFields : List String :=
  ["id", "quiz_id", "user_id", "submitted_at", "score", "accuracy", "final_score"]

/-- Python `field in raw_data` for the fields the validation loop tests. -/
def hasField (r : RawSubmission) : String → Bool
  | "id" => r.id.isSome
  | "quiz_id" => r.quiz_id.isSome
  | "user_id" => r.user_id.isSome
  | "submitted_at" => r.submitted_at.isSome
  | "score" => r.score.isSome
  | "accuracy" => r.accuracy.isSome
  | "final_score" => r.final_score.isSome
  | _ => false

/-- DataProcessor.preprocess_quiz_submission.  Validates the required
fields in order, parses the timestamp (a non-string raises
AttributeError at .replace), converts score with float(), and builds the
QuizSubmission; the accuracy string is stored unchanged. -/
def preprocess_quiz_submission (raw : RawSubmission) : Except PyErr QuizSubmission :=
  match requiredFields.find? (fun f => !hasField raw f) with
  | some f => .error (.valueError ("Missing required field: " ++ f))
  | none =>
    match raw.submitted_at with
    | some (.pstr s) =>
      match fromisoformat (replaceZ s) with
      | .error e => .error e
      | .ok sa =>
        match pyFloatOfVal (raw.score.getD .pnone) with
        | .error e => .error e
        | .ok sc =>
          .ok
            { id := raw.id.getD 0
              quiz_id := raw.quiz_id.getD 0
              user_id := raw.user_id.getD ""
              submitted_at := sa
              score := sc
              accuracy := raw.accuracy.getD ""
              speed := raw.speed.getD "0"
              final_score := raw.final_score.getD ""
              correct_answers := raw.correct_answers.getD 0
              incorrect_answers := raw.incorrect_answers.getD 0
              total_questions := raw.total_questions.getD 0
              response_map := raw.response_map.getD []
              topic :=
                match raw.quiz_topic with
                | some (some t) => t
                | _ => "Unknown" }
    | some _ => .error (.attributeError "replace")
    | none => .error (.attributeError "replace")

/-- DataProcessor.process_historical_data: per record, try
preprocess_quiz_submission; append on success, skip on ValueError, let
any other exception propagate (aborting the whole batch). -/
def process_historical_data : List RawSubmission → Except PyErr (List QuizSubmission)
  | [] => .ok []
  | r :: rest =>
    match preprocess_quiz_submission r with
    | .ok q =>
      match process_historical_data rest with
      | .ok l => .ok (q :: l)
      | .error e => .error e
    | .error (.valueError _) => process_historical_data rest
    | .error e => .error e

/-- Python dict membership test (string-keyed association list). -/
def pyHasKey (m : List (String × α)) (k : String) : Bool :=
  (m.lookup k).isSome

/-- Python dict read with default. -/
def pyGetD (m : List (String × α)) (k : String) (d : α) : α :=
  (m.lookup k).getD d

/-- Python dict assignment: update an existing key in place, append a
new key at the end (insertion order). -/
def pyInsert : List (String × α) → String → α → List (String × α)
  | [], k, v => [(k, v)]
  | (k0, v0) :: rest, k, v =>
    if k0 = k then (k, v) :: rest else (k0, v0) :: pyInsert rest k v

/-- The accuracy parse every analysis component performs:
`float(quiz.accuracy.strip(PERCENT)) / 100`. -/
def parseAccuracy (s : String) : Except PyErr ℚ :=
  match pyFloatStr (stripCharBoth '%' s) with
  | some v => .ok (v / 100)
  | none => .error (.valueError ("could not convert string to float: " ++ s))

/-- PerformanceAnalyzer.analyze_topic_performance, loop body: builds the
topic_scores and topic_counts dicts over the quiz history. -/
def atpLoop : List QuizSubmission → List (String × ℚ) → List (String × Nat) →
    Except PyErr (List (String × ℚ) × List (String × Nat))
  | [], ts, tc => .ok (ts, tc)
  | q :: rest, ts, tc =>
    let ts0 := if pyHasKey ts q.topic then ts else pyInsert ts q.topic 0
    let tc0 := if pyHasKey tc q.topic then tc else pyInsert tc q.topic 0
    match parseAccuracy q.accuracy with
    | .error e => .error e
    | .ok a =>
      atpLoop rest (pyInsert ts0 q.topic (pyGetD ts0 q.topic 0 + a))
        (pyInsert tc0 q.topic (pyGetD tc0 q.topic 0 + 1))

/-- PerformanceAnalyzer.analyze_topic_performance: the final dict
comprehension zips the keys with the paired score and count values and
divides. -/
def analyze_topic_performance (hist : List QuizSubmission) :
    Except PyErr (List (String × ℚ)) :=
  match atpLoop hist [] [] with
  | .error e => .error e
  | .ok (ts, tc) =>
    .ok (((ts.map Prod.fst).zip ((ts.map Prod.snd).zip (tc.map Prod.snd))).map
      (fun p => (p.1, p.2.1 / ((p.2.2 : ℚ)))))

/-- PerformanceAnalyzer.identify_weak_areas WEAKNESS_THRESHOLD. -/
def WEAKNESS_THRESHOLD : ℚ := 3 / 5

/-- PerformanceAnalyzer.identify_weak_areas. -/
def identify_weak_areas (tp : List (String × ℚ)) : List String :=
  (tp.filter (fun p => decide (p.2 < WEAKNESS_THRESHOLD))).map Prod.fst

/-- The sort key comparison `lambda x: x.submitted_at` used by Python's
stable sorted(). -/
def dtLe (a b : QuizSubmission) : Bool :=
  decide (a.submitted_at.key ≤ b.submitted_at.key)

/-- `sorted(quiz_history, key=lambda x: x.submitted_at)` — Python's sort
is stable; mergeSort is the stable sort of the Lean library. -/
def sortedByDate (hist : List QuizSubmission) : List QuizSubmission :=
  hist.mergeSort dtLe

/-- PerformanceAnalyzer.calculate_improvement_trends, loop body over the
date-sorted history: appends each accuracy to its topic's list. -/
def citLoop : List QuizSubmission → List (String × List ℚ) →
    Except PyErr (List (String × List ℚ))
  | [], tt => .ok tt
  | q :: rest, tt =>
    let tt0 := if pyHasKey tt q.topic then tt else pyInsert tt q.topic []
    match parseAccuracy q.accuracy with
    | .error e => .error e
    | .ok a => citLoop rest (pyInsert tt0 q.topic (pyGetD tt0 q.topic [] ++ [a]))

/-- PerformanceAnalyzer.calculate_improvement_trends. -/
def calculate_improvement_trends (hist : List QuizSubmission) :
    Except PyErr (List (String × List ℚ)) :=
  citLoop (sortedByDate hist) []

/-- PerformanceAnalyzer.analyze_student_performance: raises ValueError
on an empty history, otherwise assembles the StudentPerformance. -/
def analyze_student_performance : List QuizSubmission → Except PyErr StudentPerformance
  | [] => .error (.valueError "Quiz history is empty")
  | q0 :: rest =>
    match analyze_topic_performance (q0 :: rest) with
    | .error e => .error e
    | .ok tp =>
      match calculate_improvement_trends (q0 :: rest) with
      | .error e => .error e
      | .ok trends =>
        .ok
          { user_id := q0.user_id
            quiz_history := q0 :: rest
            topic_wise_accuracy := tp
            weak_areas := identify_weak_areas tp
            improvement_trends := trends
            predicted_rank := Option.none
            recommended_colleges := Option.none }

/-- src/utils/constants.py performance thresholds. -/
def WEAK_PERFORMANCE_THRESHOLD : ℚ := 2 / 5

def AVERAGE_PERFORMANCE_THRESHOLD : ℚ := 3 / 5

def GOOD_PERFORMANCE_THRESHOLD : ℚ := 3 / 4

/-- src/utils/constants.py NEET_TOPICS. -/
def NEET_TOPICS : List String :=
  ["Human Physiology", "Body Fluids and Circulation", "Reproduction",
   "Reproductive Health", "Principles of Inheritance and Variation",
   "Microbes in Human Welfare", "Human Health and Disease",
   "Structural Organisation in Animals"]

/-- src/utils/helpers.py categorize_performance. -/
def categorize_performance (accuracy : ℚ) : String :=
  if GOOD_PERFORMANCE_THRESHOLD ≤ accuracy then "Good"
  else if accuracy ≤ WEAK_PERFORMANCE_THRESHOLD then "Needs Improvement"
  else "Average"

/-- np.mean of a list of (non-nan) floats: nan (none) on an empty list. -/
def npMean (l : List ℚ) : Option ℚ :=
  if l.isEmpty then none else some (l.sum / ((l.length : ℚ)))

/-- Python round-half-to-even to an integer. -/
def roundHalfEven (q : ℚ) : Int :=
  let f := Int.floor q
  let r := q - (f : ℚ)
  if r < 1 / 2 then f
  else if (1 : ℚ) / 2 < r then f + 1
  else if f % 2 = 0 then f else f + 1

/-- Python round(x, 2). -/
def pyRound2 (q : ℚ) : ℚ :=
  ((roundHalfEven (q * 100) : ℚ)) / 100

/-- One entry of the processed_quizzes list built by
InsightGenerator.generate_comprehensive_report. -/
structure ProcessedQuiz where
  topic : String
  accuracy : ℚ
  score : ℚ
  date : Dt
deriving DecidableEq, Repr

/-- The per-quiz processing loop of generate_comprehensive_report: the
accuracy is parsed and appended first, so a quiz whose final_score fails
float() still contributes its accuracy but no processed entry; any
per-quiz failure is caught and the loop continues. -/
def insProcess : List QuizSubmission → List ℚ × List ProcessedQuiz
  | [] => ([], [])
  | q :: rest =>
    let acc := insProcess rest
    match parseAccuracy q.accuracy with
    | .error _ => acc
    | .ok a =>
      match pyFloatStr q.final_score with
      | none => (a :: acc.1, acc.2)
      | some sc =>
        (a :: acc.1, { topic := q.topic, accuracy := a, score := sc, date := q.submitted_at } :: acc.2)

/-- The topic_stats dict built by generate_comprehensive_report:
topic to (accuracies, scores). -/
def tsLoop : List ProcessedQuiz → List (String × (List ℚ × List ℚ)) →
    List (String × (List ℚ × List ℚ))
  | [], m => m
  | p :: rest, m =>
    let m0 := if pyHasKey m p.topic then m else pyInsert m p.topic ([], [])
    let cur := pyGetD m0 p.topic ([], [])
    tsLoop rest (pyInsert m0 p.topic (cur.1 ++ [p.accuracy], cur.2 ++ [p.score]))

structure OverallStats where
  average_accuracy : Option ℚ
  total_quizzes : Nat
  topics_covered : Nat
  topics_needing_improvement : Nat
deriving DecidableEq, Repr

structure TopicInsight where
  score : ℚ
  status : String
  recommendations : List String
deriving DecidableEq, Repr

structure WeakAreaEntry where
  topic : String
  current_score : String
  priority : String
deriving DecidableEq, Repr

structure RecEntry where
  area : String
  action : String
  priority : String
deriving DecidableEq, Repr

structure FullReport where
  overall_statistics : OverallStats
  topic_insights : List (String × TopicInsight)
  weak_areas : List WeakAreaEntry
  recommendations : List RecEntry
  uncovered_topics : List String
deriving DecidableEq, Repr

/-- A report is either the error-marker dictionary (error message plus
generated_at wall-clock timestamp, the latter outside the embedding) or
the full report dictionary. -/
inductive Report
  | err (msg : String)
  | full (r : FullReport)
deriving DecidableEq, Repr

/-- str() of the AttributeError raised by the topic-insights loop:
InsightGenerator has no method _categorize_performance (the repository
only defines the module-level helpers.categorize_performance), so the
first loop iteration raises, and the outer handler returns the
error-marker report. -/
def attrErrMsg : String :=
  "InsightGenerator object has no attribute _categorize_performance"

/-- InsightGenerator.generate_comprehensive_report.  Empty history:
error-marker report.  Otherwise quizzes are processed, overall stats
computed, topic_stats grouped; if topic_stats is non-empty the
topic-insights loop raises AttributeError on its first iteration
(missing method _categorize_performance) and the outer except returns
the error-marker report; only with empty topic_stats does the function
reach the final report (with empty insight sections). -/
def generate_comprehensive_report (quiz_history : List QuizSubmission) : Report :=
  if quiz_history.isEmpty then .err "No quiz history available"
  else
    let pr := insProcess quiz_history
    let statsAvg := (npMean pr.1).map (fun m => pyRound2 (m * 100))
    let topicStats := tsLoop pr.2 []
    match topicStats with
    | _ :: _ => .err attrErrMsg
    | [] =>
      let topicInsights : List (String × TopicInsight) := []
      .full
        { overall_statistics :=
            { average_accuracy := statsAvg
              total_quizzes := pr.2.length
              topics_covered := (pr.2.map ProcessedQuiz.topic).eraseDups.length
              topics_needing_improvement := 0 }
          topic_insights := topicInsights
          weak_areas := []
          recommendations := []
          uncovered_topics := NEET_TOPICS.filter (fun t => !(pyHasKey topicInsights t)) }

/-- One step of Python max(..., key=lambda x: x.submitted_at): the
running best is replaced only on a strictly greater key, so the first
maximal element wins. -/
def maxStep (best y : QuizSubmission) : QuizSubmission :=
  if best.submitted_at.key < y.submitted_at.key then y else best

/-- Python max(quiz_history, key=lambda x: x.submitted_at): ValueError
on an empty sequence, otherwise the first element with maximal key. -/
def pyMaxByDate : List QuizSubmission → Except PyErr QuizSubmission
  | [] => .error (.valueError "max() arg is an empty sequence")
  | q :: rest => .ok (rest.foldl maxStep q)

/-- RankPredictor._extract_features: the 4-element feature vector. -/
def _extract_features (perf : StudentPerformance) : Except PyErr (List PyFloat) :=
  let avgAccuracy := npMean (perf.topic_wise_accuracy.map Prod.snd)
  let nWeak : ℚ := ((perf.weak_areas.length : ℚ))
  let deltas :=
    ((perf.improvement_trends.map Prod.snd).filter (fun tr => decide (1 < tr.length))).map
      (fun tr => tr.getLastD 0 - tr.headD 0)
  let avgImprovement := npMean deltas
  match pyMaxByDate perf.quiz_history with
  | .error e => .error e
  | .ok latest =>
    match pyFloatStr latest.final_score with
    | some fs => .ok [avgAccuracy, some nWeak, avgImprovement, some fs]
    | none => .error (.valueError ("could not convert string to float: " ++ latest.final_score))

/-- RankPredictor state: the regression model is abstracted as a
function from the feature vector to a predicted value. -/
structure RankPredictor where
  model : List PyFloat → ℚ
  is_trained : Bool

/-- RankPredictor.__init__: a fresh predictor, untrained. -/
def RankPredictor.mkInit (model : List PyFloat → ℚ) : RankPredictor :=
  ⟨model, false⟩

/-- Python int() on a float: truncation toward zero. -/
def pyIntOfRat (q : ℚ) : Int :=
  if 0 ≤ q then Int.floor q else Int.ceil q

/-- RankPredictor.predict_rank: untrained returns the fixed placeholder
5000 without touching the input; trained extracts features and applies
the model. -/
def predict_rank (rp : RankPredictor) (perf : StudentPerformance) : Except PyErr Int :=
  if !rp.is_trained then .ok 5000
  else
    match _extract_features perf with
    | .error e => .error e
    | .ok fs => .ok (pyIntOfRat (rp.model fs))

deriving instance DecidableEq for Except

/-- true iff the computation failed with a ValueError (the class the
batch normalizer catches). -/
def isValueError : Except PyErr β → Bool
  | .error (.valueError _) => true
  | _ => false

/-! Concrete fixtures used by the witnesses and counterexamples. -/

def cDt1 : Dt := ⟨2024, 1, 1, 10, 0, 0, some 0⟩

def cDt2 : Dt := ⟨2024, 1, 2, 10, 0, 0, some 0⟩

def mkQuiz (topic acc fs : String) (dt : Dt) : QuizSubmission :=
  { id := 1, quiz_id := 1, user_id := "u1", submitted_at := dt, score := 40,
    accuracy := acc, speed := "0", final_score := fs, correct_answers := 0,
    incorrect_answers := 0, total_questions := 0, response_map := [], topic := topic }

def cRawGood : RawSubmission :=
  { id := some 1, quiz_id := some 11, user_id := some "u1",
    submitted_at := some (.pstr "2024-01-01T10:00:00Z"), score := some (.pint 50),
    accuracy := some "80%", final_score := some "40", speed := some "1.2",
    correct_answers := some 8, incorrect_answers := some 2, total_questions := some 10,
    response_map := some [], quiz_topic := some (some "Human Physiology") }

/-- All required fields present, accuracy is a non-numeric string. -/
def cRawNonNumericAcc : RawSubmission :=
  { cRawGood with accuracy := some "abc" }

/-- The submission cRawNonNumericAcc normalizes to. -/
def cQuizNonNumericAcc : QuizSubmission :=
  { id := 1, quiz_id := 11, user_id := "u1", submitted_at := cDt1,
    score := 50, accuracy := "abc", speed := "1.2", final_score := "40",
    correct_answers := 8, incorrect_answers := 2, total_questions := 10,
    response_map := [], topic := "Human Physiology" }

/-- All required fields present, submitted_at is not a string. -/
def cRawBadDateType : RawSubmission :=
  { cRawGood with submitted_at := some (.pint 5) }

/-- The accuracy key is absent. -/
def cRawMissingAcc : RawSubmission :=
  { cRawGood with accuracy := Option.none }

/-- Claim C1 (code_bug evidence): on a one-submission history the
Insight Synthesizer returns the error-marker report — the topic-insights
loop calls the method _categorize_performance, which InsightGenerator
does not define, so the AttributeError is caught by the outer handler
and no topic_insights are produced; meanwhile the module-level helper
categorize_performance implements exactly the claimed labels, with the
boundary values 0.75 and 0.4 resolving to the labeled extremes. -/
theorem c1_report_lacks_topic_insights :
    generate_comprehensive_report [mkQuiz "Human Physiology" "80%" "40" cDt1]
      = Report.err attrErrMsg
    ∧ categorize_performance (3 / 4) = "Good"
    ∧ categorize_performance (2 / 5) = "Needs Improvement"
    ∧ categorize_performance (1 / 2) = "Average"
    ∧ categorize_performance (4 / 5) = "Good"
    ∧ categorize_performance (3 / 10) = "Needs Improvement" := by
  refine ⟨by decide, ?_, ?_, ?_, ?_, ?_⟩ <;> norm_num [categorize_performance,
    GOOD_PERFORMANCE_THRESHOLD, WEAK_PERFORMANCE_THRESHOLD]

/-- Claim C2 counterexample: a raw submission whose accuracy value lacks
the percent suffix and is non-numeric is accepted by normalize, and the
resulting record carries the raw string unchanged — the claimed parse
(strip the percent sign, divide by 100) does not happen during
normalization and normalization does not fail. -/
theorem c2_normalize_accepts_non_numeric_accuracy :
    preprocess_quiz_submission cRawNonNumericAcc = .ok cQuizNonNumericAcc
    ∧ cQuizNonNumericAcc.accuracy = "abc"
    ∧ pyFloatStr (stripCharBoth '%' "abc") = none := by
  decide

/-- Claim C5: the two empty-input policies are asymmetric — the
Performance Aggregator raises ValueError("Quiz history is empty") on an
empty history, while the Insight Synthesizer returns the error-marker
report (a value, not an exception). -/
theorem c5_empty_history_asymmetry :
    analyze_student_performance [] = .error (.valueError "Quiz history is empty")
    ∧ generate_comprehensive_report [] = Report.err "No quiz history available" := by
  decide

/-- Claim C8: an untrained Rank Estimator returns the placeholder 5000
for every input performance and never fails with an untrained-model
error. -/
theorem c8_untrained_predict_constant (model : List PyFloat → ℚ)
    (perf : StudentPerformance) :
    predict_rank (RankPredictor.mkInit model) perf = .ok 5000 := rfl

/-- Claim C10: a batch whose records all contain every required field
but in which one record has a non-string submitted_at makes the batch
normalizer propagate the AttributeError (only ValueError is caught), so
the whole batch aborts and no records are returned — even though the
other record is valid. -/
theorem c10_non_valueerror_aborts_batch :
    requiredFields.all (fun f => hasField cRawBadDateType f) = true
    ∧ requiredFields.all (fun f => hasField cRawGood f) = true
    ∧ (preprocess_quiz_submission cRawGood).isOk = true
    ∧ preprocess_quiz_submission cRawBadDateType = .error (.attributeError "replace")
    ∧ process_historical_data [cRawGood, cRawBadDateType]
        = .error (.attributeError "replace") := by
  decide

/-- Claim C6: a raw submission missing at least one required field is
rejected by normalize with a ValueError naming a missing required field
(the first missing one in the fixed validation order). -/
theorem c6_missing_field_validation (raw : RawSubmission) (f : String)
    (hf : f ∈ requiredFields) (hmiss : hasField raw f = false) :
    ∃ f0, f0 ∈ requiredFields ∧ hasField raw f0 = false ∧
      preprocess_quiz_submission raw
        = .error (.valueError ("Missing required field: " ++ f0)) := by
  have hex : (requiredFields.find? (fun g => !hasField raw g)).isSome := by
    rw [List.find?_isSome]
    exact ⟨f, hf, by simp [hmiss]⟩
  obtain ⟨f0, hf0⟩ := Option.isSome_iff_exists.mp hex
  refine ⟨f0, List.mem_of_find?_eq_some hf0, ?_, ?_⟩
  · have := List.find?_some hf0
    simpa using this
  · simp [preprocess_quiz_submission, hf0]

/-- Witness for c6_missing_field_validation: a record lacking only the
accuracy key. -/
theorem c6_missing_field_validation_witness :
    ("accuracy" ∈ requiredFields ∧ hasField cRawMissingAcc "accuracy" = false)
    ∧ ∃ f0, f0 ∈ requiredFields ∧ hasField cRawMissingAcc f0 = false ∧
        preprocess_quiz_submission cRawMissingAcc
          = .error (.valueError ("Missing required field: " ++ f0)) :=
  ⟨by decide, c6_missing_field_validation cRawMissingAcc "accuracy" (by decide) (by decide)⟩

/-- Claim C7: over a batch in which every record either normalizes or
fails with a ValueError, the batch normalizer returns exactly the
successfully normalized records in their original relative order,
skipping each invalid record. -/
theorem c7_batch_skips_invalid (batch : List RawSubmission)
    (h : ∀ r ∈ batch, (preprocess_quiz_submission r).isOk = true
         ∨ isValueError (preprocess_quiz_submission r) = true) :
    process_historical_data batch
      = .ok (batch.filterMap (fun r => (preprocess_quiz_submission r).toOption)) := by
  induction batch with
  | nil => rfl
  | cons r rest ih =>
    have hr := h r (by simp)
    have hrest : ∀ x ∈ rest, (preprocess_quiz_submission x).isOk = true
        ∨ isValueError (preprocess_quiz_submission x) = true :=
      fun x hx => h x (by simp [hx])
    cases hpre : preprocess_quiz_submission r with
    | ok q =>
      simp [process_historical_data, hpre, ih hrest, List.filterMap_cons, Except.toOption]
    | error e =>
      cases e with
      | valueError m =>
        simp [process_historical_data, hpre, ih hrest, List.filterMap_cons, Except.toOption]
      | typeError m =>
        rw [hpre] at hr
        simp [Except.isOk, Except.toBool, isValueError] at hr
      | attributeError a =>
        rw [hpre] at hr
        simp [Except.isOk, Except.toBool, isValueError] at hr

/-- Witness for c7_batch_skips_invalid: one valid record, one record
with a missing field (skipped), one more valid record. -/
theorem c7_batch_skips_invalid_witness :
    (∀ r ∈ [cRawGood, cRawMissingAcc, cRawNonNumericAcc],
        (preprocess_quiz_submission r).isOk = true
        ∨ isValueError (preprocess_quiz_submission r) = true)
    ∧ process_historical_data [cRawGood, cRawMissingAcc, cRawNonNumericAcc]
      = .ok ([cRawGood, cRawMissingAcc, cRawNonNumericAcc].filterMap
          (fun r => (preprocess_quiz_submission r).toOption)) :=
  ⟨by decide, c7_batch_skips_invalid _ (by decide)⟩

/-- Claim C2 amended: normalize stores the raw accuracy string in the
record unchanged (it neither strips the percent sign, divides, nor fails
on a non-numeric value); the fraction is derived downstream by the
analysis components, whose shared parse strips percent characters and
divides by 100, and it is that downstream parse that fails with a
ValueError on a non-numeric accuracy. -/
theorem c2_amended_accuracy_passthrough :
    (∀ (raw : RawSubmission) (q : QuizSubmission),
        preprocess_quiz_submission raw = .ok q → raw.accuracy = some q.accuracy)
    ∧ (∀ (q : QuizSubmission) (v : ℚ),
        pyFloatStr (stripCharBoth '%' q.accuracy) = some v →
        analyze_topic_performance [q] = .ok [(q.topic, v / 100)])
    ∧ (∀ q : QuizSubmission,
        pyFloatStr (stripCharBoth '%' q.accuracy) = none →
        analyze_topic_performance [q]
          = .error (.valueError ("could not convert string to float: " ++ q.accuracy))) := by
  refine ⟨?_, ?_, ?_⟩
  · intro raw q hok
    unfold preprocess_quiz_submission at hok
    split at hok
    · exact absurd hok (by simp)
    · rename_i hfind
      split at hok
      · rename_i s hsa
        split at hok
        · exact absurd hok (by simp)
        · split at hok
          · exact absurd hok (by simp)
          · rename_i sc hsc
            have hq := (Except.ok.injEq _ _).mp hok
            have hqa : q.accuracy = raw.accuracy.getD "" := by rw [← hq]
            have hacc : hasField raw "accuracy" = true := by
              have := List.find?_eq_none.mp hfind "accuracy" (by decide)
              simpa using this
            simp only [hasField] at hacc
            cases h : raw.accuracy with
            | none => rw [h] at hacc; simp at hacc
            | some a => rw [hqa, h]; simp
      · exact absurd hok (by simp)
      · exact absurd hok (by simp)
  · intro q v hv
    have hpa : parseAccuracy q.accuracy = .ok (v / 100) := by
      unfold parseAccuracy
      rw [hv]
    simp only [analyze_topic_performance, atpLoop, pyHasKey, pyInsert, pyGetD,
      List.lookup, hpa]
    simp [List.lookup]
  · intro q hv
    have hpa : parseAccuracy q.accuracy
        = .error (.valueError ("could not convert string to float: " ++ q.accuracy)) := by
      unfold parseAccuracy
      rw [hv]
    simp only [analyze_topic_performance, atpLoop, pyHasKey, pyInsert, pyGetD,
      List.lookup, hpa]

/-- Witness for c2_amended_accuracy_passthrough: the accuracy string
80-percent parses downstream to the fraction 80/100. -/
theorem c2_amended_accuracy_passthrough_witness :
    pyFloatStr (stripCharBoth '%' (mkQuiz "Human Physiology" "80%" "40" cDt1).accuracy)
      = some 80
    ∧ analyze_topic_performance [mkQuiz "Human Physiology" "80%" "40" cDt1]
      = .ok [((mkQuiz "Human Physiology" "80%" "40" cDt1).topic, 80 / 100)] :=
  ⟨by decide, c2_amended_accuracy_passthrough.2.1 _ 80 (by decide)⟩

theorem foldl_maxStep_spec (rest : List QuizSubmission) :
    ∀ b : QuizSubmission,
      (rest.foldl maxStep b = b ∨ rest.foldl maxStep b ∈ rest)
      ∧ b.submitted_at.key ≤ (rest.foldl maxStep b).submitted_at.key
      ∧ ∀ q ∈ rest, q.submitted_at.key ≤ (rest.foldl maxStep b).submitted_at.key := by
  induction rest with
  | nil => intro b; exact ⟨Or.inl rfl, le_refl _, by simp⟩
  | cons y ys ih =>
    intro b
    have hb1 : b.submitted_at.key ≤ (maxStep b y).submitted_at.key := by
      unfold maxStep
      split
      · exact le_of_lt (by assumption)
      · exact le_refl _
    have hy1 : y.submitted_at.key ≤ (maxStep b y).submitted_at.key := by
      unfold maxStep
      split
      · exact le_refl _
      · exact le_of_not_lt (by assumption)
    have hmem : maxStep b y = b ∨ maxStep b y = y := by
      unfold maxStep
      split
      · exact Or.inr rfl
      · exact Or.inl rfl
    obtain ⟨ihm, ihb, ihall⟩ := ih (maxStep b y)
    refine ⟨?_, le_trans hb1 ihb, ?_⟩
    · rcases ihm with h | h
      · rcases hmem with h2 | h2
        · exact Or.inl (by rw [List.foldl_cons, h, h2])
        · exact Or.inr (by rw [List.foldl_cons, h, h2]; exact List.mem_cons_self _ _)
      · exact Or.inr (List.mem_cons_of_mem _ h)
    · intro q hq
      rcases List.mem_cons.mp hq with h | h
      · rw [h, List.foldl_cons]
        exact le_trans hy1 ihb
      · exact ihall q h

theorem pyMaxByDate_spec (l : List QuizSubmission) (hne : l ≠ []) :
    ∃ latest, pyMaxByDate l = .ok latest ∧ latest ∈ l
      ∧ ∀ q ∈ l, q.submitted_at.key ≤ latest.submitted_at.key := by
  match l with
  | [] => exact absurd rfl hne
  | q :: rest =>
    obtain ⟨hm, hb, hall⟩ := foldl_maxStep_spec rest q
    refine ⟨rest.foldl maxStep q, rfl, ?_, ?_⟩
    · rcases hm with h | h
      · rw [h]; exact List.mem_cons_self _ _
      · exact List.mem_cons_of_mem _ h
    · intro x hx
      rcases List.mem_cons.mp hx with h | h
      · rw [h]; exact hb
      · exact hall x h

/-- Claim C9: for a performance with a non-empty history whose final
scores all parse, the extracted feature vector has exactly 4 entries in
fixed order: the unweighted mean of the per-topic accuracies, the count
of weak areas, the mean over topics having at least two trend points of
(last trend value minus first trend value) — single-point topics
excluded, nan when no topic qualifies — and the parsed final score of a
chronologically most recent submission (the first maximal one). -/
theorem c9_feature_vector (perf : StudentPerformance)
    (h1 : perf.quiz_history ≠ [])
    (h2 : ∀ q ∈ perf.quiz_history, (pyFloatStr q.final_score).isSome = true) :
    ∃ (latest : QuizSubmission) (fs : ℚ),
      latest ∈ perf.quiz_history
      ∧ (∀ q ∈ perf.quiz_history, q.submitted_at.key ≤ latest.submitted_at.key)
      ∧ pyFloatStr latest.final_score = some fs
      ∧ _extract_features perf = .ok
          [ npMean (perf.topic_wise_accuracy.map Prod.snd),
            some ((perf.weak_areas.length : ℚ)),
            npMean (((perf.improvement_trends.map Prod.snd).filter
              (fun tr => decide (1 < tr.length))).map
                (fun tr => tr.getLastD 0 - tr.headD 0)),
            some fs ]
      ∧ (perf.topic_wise_accuracy ≠ [] →
          npMean (perf.topic_wise_accuracy.map Prod.snd)
            = some ((perf.topic_wise_accuracy.map Prod.snd).sum
                / ((perf.topic_wise_accuracy.length : ℚ))))
      ∧ ∀ dl : List ℚ, dl ≠ [] →
          npMean dl = some (dl.sum / ((dl.length : ℚ))) := by
  obtain ⟨latest, hmax, hmem, hall⟩ := pyMaxByDate_spec perf.quiz_history h1
  have hfs := h2 latest hmem
  obtain ⟨fs, hfs⟩ := Option.isSome_iff_exists.mp hfs
  refine ⟨latest, fs, hmem, hall, hfs, ?_, ?_, ?_⟩
  · simp only [_extract_features, hmax, hfs]
  · intro hne
    unfold npMean
    rw [if_neg (by simpa using hne)]
    simp
  · intro dl hne
    unfold npMean
    rw [if_neg (by simpa using hne)]

/-- Fixture for the c9 witness: a two-submission single-topic
performance record. -/
def cPerfW : StudentPerformance :=
  { user_id := "u1",
    quiz_history := [mkQuiz "T" "50%" "40" cDt1, mkQuiz "T" "70%" "45" cDt2],
    topic_wise_accuracy := [("T", 3 / 5)],
    weak_areas := [],
    improvement_trends := [("T", [1 / 2, 7 / 10])],
    predicted_rank := Option.none,
    recommended_colleges := Option.none }

/-- Witness for c9_feature_vector: a two-submission single-topic
performance record. -/
theorem c9_feature_vector_witness :
    ((cPerfW.quiz_history ≠ []
      ∧ ∀ q ∈ cPerfW.quiz_history, (pyFloatStr q.final_score).isSome = true))
    ∧ ∃ (latest : QuizSubmission) (fs : ℚ),
        latest ∈ cPerfW.quiz_history
        ∧ (∀ q ∈ cPerfW.quiz_history, q.submitted_at.key ≤ latest.submitted_at.key)
        ∧ pyFloatStr latest.final_score = some fs
        ∧ _extract_features cPerfW = .ok
            [ npMean (cPerfW.topic_wise_accuracy.map Prod.snd),
              some ((cPerfW.weak_areas.length : ℚ)),
              npMean (((cPerfW.improvement_trends.map Prod.snd).filter
                (fun tr => decide (1 < tr.length))).map
                  (fun tr => tr.getLastD 0 - tr.headD 0)),
              some fs ]
        ∧ (cPerfW.topic_wise_accuracy ≠ [] →
            npMean (cPerfW.topic_wise_accuracy.map Prod.snd)
              = some ((cPerfW.topic_wise_accuracy.map Prod.snd).sum
                  / ((cPerfW.topic_wise_accuracy.length : ℚ))))
        ∧ ∀ dl : List ℚ, dl ≠ [] →
            npMean dl = some (dl.sum / ((dl.length : ℚ))) :=
  ⟨⟨by decide, by decide⟩, c9_feature_vector cPerfW (by decide) (by decide)⟩

theorem lookup_pyInsert_self (m : List (String × α)) (k : String) (v : α) :
    (pyInsert m k v).lookup k = some v := by
  induction m with
  | nil => simp [pyInsert, List.lookup]
  | cons p rest ih =>
    obtain ⟨k0, v0⟩ := p
    by_cases h : k0 = k
    · simp [pyInsert, h, List.lookup]
    · have hbe : (k == k0) = false := by simp [Ne.symm h]
      simp [pyInsert, h, List.lookup, hbe, ih]

theorem lookup_pyInsert_ne (m : List (String × α)) (k k' : String) (v : α)
    (h : k' ≠ k) : (pyInsert m k v).lookup k' = m.lookup k' := by
  induction m with
  | nil =>
    have hbe : (k' == k) = false := by simp [h]
    simp [pyInsert, List.lookup, hbe]
  | cons p rest ih =>
    obtain ⟨k0, v0⟩ := p
    by_cases h0 : k0 = k
    · subst h0
      have hbe : (k' == k0) = false := by simp [h]
      simp [pyInsert, List.lookup, hbe]
    · simp only [pyInsert, if_neg h0]
      by_cases h1 : k' = k0
      · simp [List.lookup, h1]
      · have hbe : (k' == k0) = false := by simp [h1]
        simp [List.lookup, hbe, ih]

theorem lookup_isSome_iff_mem_keys (m : List (String × α)) (k : String) :
    (m.lookup k).isSome = true ↔ k ∈ m.map Prod.fst := by
  induction m with
  | nil => simp [List.lookup]
  | cons p rest ih =>
    obtain ⟨k0, v0⟩ := p
    by_cases h : k = k0
    · simp [List.lookup, h]
    · have hbe : (k == k0) = false := by simp [h]
      simp [List.lookup, hbe, ih, h]

theorem keys_pyInsert (m : List (String × α)) (k : String) (v : α) :
    (pyInsert m k v).map Prod.fst =
      if (m.lookup k).isSome then m.map Prod.fst else m.map Prod.fst ++ [k] := by
  induction m with
  | nil => simp [pyInsert, List.lookup]
  | cons p rest ih =>
    obtain ⟨k0, v0⟩ := p
    by_cases h : k0 = k
    · subst h
      simp [pyInsert, List.lookup]
    · have hbe : (k == k0) = false := by simp [Ne.symm h]
      simp only [pyInsert, if_neg h, List.map_cons, List.lookup, hbe, ih]
      by_cases hs : (rest.lookup k).isSome
      · simp [hs]
      · simp [hs]

theorem nodup_keys_pyInsert (m : List (String × α)) (k : String) (v : α)
    (h : (m.map Prod.fst).Nodup) : ((pyInsert m k v).map Prod.fst).Nodup := by
  rw [keys_pyInsert]
  by_cases hs : (m.lookup k).isSome
  · simp [hs, h]
  · have hk : k ∉ m.map Prod.fst := fun hm =>
      hs ((lookup_isSome_iff_mem_keys m k).mpr hm)
    simp [hs, h, hk, List.nodup_append]

theorem mem_of_lookup_eq_some {m : List (String × α)} {k : String} {v : α}
    (h : m.lookup k = some v) : (k, v) ∈ m := by
  induction m with
  | nil => simp [List.lookup] at h
  | cons p rest ih =>
    obtain ⟨k0, v0⟩ := p
    by_cases he : k = k0
    · subst he
      simp [List.lookup] at h
      simp [h]
    · have hbe : (k == k0) = false := by simp [he]
      rw [List.lookup, hbe] at h
      exact List.mem_cons_of_mem _ (ih h)

theorem lookup_eq_some_of_mem_nodup {m : List (String × α)} {k : String} {v : α}
    (hnd : (m.map Prod.fst).Nodup) (h : (k, v) ∈ m) : m.lookup k = some v := by
  induction m with
  | nil => simp at h
  | cons p rest ih =>
    obtain ⟨k0, v0⟩ := p
    have hnd' : k0 ∉ rest.map Prod.fst ∧ (rest.map Prod.fst).Nodup := by
      rw [List.map_cons, List.nodup_cons] at hnd
      exact hnd
    rcases List.mem_cons.mp h with h1 | h1
    · rw [Prod.mk.injEq] at h1
      obtain ⟨h2, h3⟩ := h1
      subst h2
      subst h3
      simp [List.lookup]
    · have hk : k ≠ k0 := by
        intro he
        subst he
        exact hnd'.1 (List.mem_map_of_mem Prod.fst h1)
      have hbe : (k == k0) = false := by simp [hk]
      rw [List.lookup, hbe]
      exact ih hnd'.2 h1

/-- The common dict step of the analysis loops: default-initialize a
missing key, then update it from its current value. -/
def pyBump (m : List (String × α)) (k : String) (d : α) (f : α → α) : List (String × α) :=
  pyInsert (if pyHasKey m k then m else pyInsert m k d) k
    (f (pyGetD (if pyHasKey m k then m else pyInsert m k d) k d))

theorem pyInit_lookup (m : List (String × α)) (k : String) (d : α) :
    ((if pyHasKey m k then m else pyInsert m k d).lookup k) = some ((m.lookup k).getD d) := by
  by_cases h : pyHasKey m k
  · rw [if_pos h]
    unfold pyHasKey at h
    obtain ⟨v, hv⟩ := Option.isSome_iff_exists.mp h
    rw [hv]
    rfl
  · rw [if_neg h, lookup_pyInsert_self]
    unfold pyHasKey at h
    have hnone : m.lookup k = none := Option.not_isSome_iff_eq_none.mp (by simpa using h)
    rw [hnone]
    rfl

theorem pyBump_lookup_self (m : List (String × α)) (k : String) (d : α) (f : α → α) :
    (pyBump m k d f).lookup k = some (f ((m.lookup k).getD d)) := by
  unfold pyBump
  rw [lookup_pyInsert_self]
  have : pyGetD (if pyHasKey m k then m else pyInsert m k d) k d = (m.lookup k).getD d := by
    unfold pyGetD
    rw [pyInit_lookup]
    rfl
  rw [this]

theorem pyBump_lookup_ne (m : List (String × α)) (k t : String) (d : α) (f : α → α)
    (h : t ≠ k) : (pyBump m k d f).lookup t = m.lookup t := by
  unfold pyBump
  rw [lookup_pyInsert_ne _ _ _ _ h]
  by_cases hk : pyHasKey m k
  · rw [if_pos hk]
  · rw [if_neg hk, lookup_pyInsert_ne _ _ _ _ h]

theorem pyBump_keys (m : List (String × α)) (k : String) (d : α) (f : α → α) :
    (pyBump m k d f).map Prod.fst =
      if pyHasKey m k then m.map Prod.fst else m.map Prod.fst ++ [k] := by
  unfold pyBump
  rw [keys_pyInsert, pyInit_lookup]
  simp only [Option.isSome_some, if_true]
  by_cases hk : pyHasKey m k
  · rw [if_pos hk, if_pos hk]
  · rw [if_neg hk, if_neg hk, keys_pyInsert]
    unfold pyHasKey at hk
    simp only [Bool.not_eq_true] at hk
    rw [hk]
    simp

theorem pyBump_nodup (m : List (String × α)) (k : String) (d : α) (f : α → α)
    (h : (m.map Prod.fst).Nodup) : ((pyBump m k d f).map Prod.fst).Nodup := by
  rw [pyBump_keys]
  by_cases hk : pyHasKey m k
  · simpa [hk]
  · have hmem : k ∉ m.map Prod.fst := fun hm => by
      unfold pyHasKey at hk
      exact hk ((lookup_isSome_iff_mem_keys m k).mpr hm)
    simp [hk, List.nodup_append, h, hmem]

/-- The accuracy value the analysis derives for one submission (defined
when the parse succeeds; 0 as an irrelevant default otherwise). -/
def accVal (q : QuizSubmission) : ℚ :=
  ((parseAccuracy q.accuracy).toOption).getD 0

/-- The per-topic accuracy sequence of a history, in history order. -/
def topicAccs (hist : List QuizSubmission) (t : String) : List ℚ :=
  (hist.filter (fun q => q.topic == t)).map accVal

theorem topicAccs_cons (q : QuizSubmission) (rest : List QuizSubmission) (t : String) :
    topicAccs (q :: rest) t =
      if q.topic = t then accVal q :: topicAccs rest t else topicAccs rest t := by
  by_cases h : q.topic = t
  · simp [topicAccs, List.filter_cons, h]
  · simp [topicAccs, List.filter_cons, h]

theorem atpLoop_spec (hist : List QuizSubmission) :
    ∀ (ts : List (String × ℚ)) (tc : List (String × Nat)),
    (∀ q ∈ hist, (parseAccuracy q.accuracy).isOk = true) →
    ts.map Prod.fst = tc.map Prod.fst →
    ∃ ts' tc', atpLoop hist ts tc = .ok (ts', tc')
      ∧ ts'.map Prod.fst = tc'.map Prod.fst
      ∧ ((ts.map Prod.fst).Nodup → (ts'.map Prod.fst).Nodup)
      ∧ (∀ t, ts'.lookup t =
          if ((ts.lookup t).isSome || (hist.map (fun q => q.topic)).contains t)
          then some ((ts.lookup t).getD 0 + (topicAccs hist t).sum) else none)
      ∧ (∀ t, tc'.lookup t =
          if ((tc.lookup t).isSome || (hist.map (fun q => q.topic)).contains t)
          then some ((tc.lookup t).getD 0 + (topicAccs hist t).length) else none) := by
  induction hist with
  | nil =>
    intro ts tc hall hkeys
    refine ⟨ts, tc, rfl, hkeys, fun h => h, ?_, ?_⟩
    · intro t
      cases hl : ts.lookup t with
      | none => simp [topicAccs]
      | some v => simp [topicAccs]
    · intro t
      cases hl : tc.lookup t with
      | none => simp [topicAccs]
      | some v => simp [topicAccs]
  | cons q rest ih =>
    intro ts tc hall hkeys
    have hq : (parseAccuracy q.accuracy).isOk = true := hall q (by simp)
    obtain ⟨a, ha⟩ : ∃ a, parseAccuracy q.accuracy = .ok a := by
      cases hpa : parseAccuracy q.accuracy with
      | ok x => exact ⟨x, rfl⟩
      | error e => rw [hpa] at hq; simp [Except.isOk, Except.toBool] at hq
    have haccv : accVal q = a := by simp [accVal, ha, Except.toOption]
    have hallr : ∀ x ∈ rest, (parseAccuracy x.accuracy).isOk = true :=
      fun x hx => hall x (by simp [hx])
    have hstep : atpLoop (q :: rest) ts tc =
        atpLoop rest (pyBump ts q.topic 0 (· + a)) (pyBump tc q.topic 0 (· + 1)) := by
      simp only [atpLoop, ha, pyBump]
    have hhk : pyHasKey ts q.topic = pyHasKey tc q.topic := by
      unfold pyHasKey
      rw [Bool.eq_iff_iff, lookup_isSome_iff_mem_keys, lookup_isSome_iff_mem_keys, hkeys]
    obtain ⟨ts', tc', hloop, hkeq', hnd', hts', htc'⟩ :=
      ih (pyBump ts q.topic 0 (· + a)) (pyBump tc q.topic 0 (· + 1)) hallr
        (by rw [pyBump_keys, pyBump_keys, hkeys, hhk])
    refine ⟨ts', tc', by rw [hstep]; exact hloop, hkeq',
      fun hnd => hnd' (pyBump_nodup _ _ _ _ hnd), ?_, ?_⟩
    · intro t
      rw [hts' t]
      by_cases ht : t = q.topic
      · subst ht
        rw [pyBump_lookup_self]
        have hta : topicAccs (q :: rest) q.topic = accVal q :: topicAccs rest q.topic := by
          rw [topicAccs_cons]
          exact if_pos rfl
        have hcont2 : ((q :: rest).map (fun x => x.topic)).contains q.topic = true := by
          simp
        rw [hta, haccv, hcont2]
        simp only [Option.isSome_some, Bool.true_or, Option.getD_some, Bool.or_true,
          List.sum_cons, if_true]
        congr 1
        ring
      · rw [pyBump_lookup_ne _ _ _ _ _ ht]
        have hta : topicAccs (q :: rest) t = topicAccs rest t := by
          rw [topicAccs_cons]
          exact if_neg (fun he => ht he.symm)
        have hcont : ((q :: rest).map (fun x => x.topic)).contains t
            = ((rest).map (fun x => x.topic)).contains t := by
          have hbe : (t == q.topic) = false := by simp [ht]
          rw [List.map_cons, List.contains_cons, hbe]
          simp
        rw [hta, hcont]
    · intro t
      rw [htc' t]
      by_cases ht : t = q.topic
      · subst ht
        rw [pyBump_lookup_self]
        have hta : topicAccs (q :: rest) q.topic = accVal q :: topicAccs rest q.topic := by
          rw [topicAccs_cons]
          exact if_pos rfl
        have hcont2 : ((q :: rest).map (fun x => x.topic)).contains q.topic = true := by
          simp
        rw [hta, hcont2]
        simp only [Option.isSome_some, Bool.true_or, Option.getD_some, Bool.or_true,
          List.length_cons, if_true]
        congr 1
        omega
      · rw [pyBump_lookup_ne _ _ _ _ _ ht]
        have hta : topicAccs (q :: rest) t = topicAccs rest t := by
          rw [topicAccs_cons]
          exact if_neg (fun he => ht he.symm)
        have hcont : ((q :: rest).map (fun x => x.topic)).contains t
            = ((rest).map (fun x => x.topic)).contains t := by
          have hbe : (t == q.topic) = false := by simp [ht]
          rw [List.map_cons, List.contains_cons, hbe]
          simp
        rw [hta, hcont]

theorem keys_zip_div (ts : List (String × ℚ)) (tc : List (String × Nat))
    (h : ts.map Prod.fst = tc.map Prod.fst) :
    (((ts.map Prod.fst).zip ((ts.map Prod.snd).zip (tc.map Prod.snd))).map
      (fun p => (p.1, p.2.1 / ((p.2.2 : ℚ))))).map Prod.fst = ts.map Prod.fst := by
  induction ts generalizing tc with
  | nil => simp
  | cons p ts' ih =>
    cases tc with
    | nil => simp at h
    | cons p2 tc' =>
      obtain ⟨k, a⟩ := p
      obtain ⟨k2, b⟩ := p2
      simp only [List.map_cons] at h
      injection h with hk hrest
      subst hk
      simp only [List.map_cons, List.zip_cons_cons]
      rw [ih tc' hrest]

theorem lookup_zip_div (ts : List (String × ℚ)) (tc : List (String × Nat))
    (h : ts.map Prod.fst = tc.map Prod.fst) (t : String) :
    (((ts.map Prod.fst).zip ((ts.map Prod.snd).zip (tc.map Prod.snd))).map
      (fun p => (p.1, p.2.1 / ((p.2.2 : ℚ))))).lookup t
      = match ts.lookup t, tc.lookup t with
        | some a, some b => some (a / ((b : ℚ)))
        | _, _ => none := by
  induction ts generalizing tc with
  | nil =>
    cases tc with
    | nil => simp [List.lookup]
    | cons p l => simp at h
  | cons p ts' ih =>
    cases tc with
    | nil => simp at h
    | cons p2 tc' =>
      obtain ⟨k, a⟩ := p
      obtain ⟨k2, b⟩ := p2
      simp only [List.map_cons] at h
      injection h with hk hrest
      subst hk
      by_cases ht : t = k
      · subst ht
        simp [List.lookup, List.zip_cons_cons]
      · have hbe : (t == k) = false := by simp [ht]
        simp only [List.map_cons, List.zip_cons_cons, List.lookup, hbe]
        exact ih tc' hrest

theorem atp_spec (hist : List QuizSubmission)
    (hall : ∀ q ∈ hist, (parseAccuracy q.accuracy).isOk = true) :
    ∃ tpa, analyze_topic_performance hist = .ok tpa
      ∧ (tpa.map Prod.fst).Nodup
      ∧ (∀ t, tpa.lookup t =
          if (hist.map (fun q => q.topic)).contains t
          then some ((topicAccs hist t).sum / ((topicAccs hist t).length : ℚ))
          else none) := by
  obtain ⟨ts', tc', hloop, hkeq, hnd, hts, htc⟩ := atpLoop_spec hist [] [] hall rfl
  refine ⟨((ts'.map Prod.fst).zip ((ts'.map Prod.snd).zip (tc'.map Prod.snd))).map
      (fun p => (p.1, p.2.1 / ((p.2.2 : ℚ)))), ?_, ?_, ?_⟩
  · unfold analyze_topic_performance
    rw [hloop]
  · rw [keys_zip_div ts' tc' hkeq]
    exact hnd (by simp)
  · intro t
    rw [lookup_zip_div ts' tc' hkeq t, hts t, htc t]
    cases hc : (hist.map (fun q => q.topic)).contains t
    · simp [List.lookup, hc]
    · simp [List.lookup, hc]

theorem citLoop_spec (hist : List QuizSubmission) :
    ∀ tt : List (String × List ℚ),
    (∀ q ∈ hist, (parseAccuracy q.accuracy).isOk = true) →
    ∃ tt', citLoop hist tt = .ok tt'
      ∧ ((tt.map Prod.fst).Nodup → (tt'.map Prod.fst).Nodup)
      ∧ (∀ t, tt'.lookup t =
          if ((tt.lookup t).isSome || (hist.map (fun q => q.topic)).contains t)
          then some ((tt.lookup t).getD [] ++ topicAccs hist t) else none) := by
  induction hist with
  | nil =>
    intro tt hall
    refine ⟨tt, rfl, fun h => h, ?_⟩
    intro t
    cases hl : tt.lookup t with
    | none => simp [topicAccs]
    | some v => simp [topicAccs]
  | cons q rest ih =>
    intro tt hall
    have hq : (parseAccuracy q.accuracy).isOk = true := hall q (by simp)
    obtain ⟨a, ha⟩ : ∃ a, parseAccuracy q.accuracy = .ok a := by
      cases hpa : parseAccuracy q.accuracy with
      | ok x => exact ⟨x, rfl⟩
      | error e => rw [hpa] at hq; simp [Except.isOk, Except.toBool] at hq
    have haccv : accVal q = a := by simp [accVal, ha, Except.toOption]
    have hallr : ∀ x ∈ rest, (parseAccuracy x.accuracy).isOk = true :=
      fun x hx => hall x (by simp [hx])
    have hstep : citLoop (q :: rest) tt =
        citLoop rest (pyBump tt q.topic [] (· ++ [a])) := by
      simp only [citLoop, ha, pyBump]
    obtain ⟨tt', hloop, hnd', htt'⟩ := ih (pyBump tt q.topic [] (· ++ [a])) hallr
    refine ⟨tt', by rw [hstep]; exact hloop,
      fun hnd => hnd' (pyBump_nodup _ _ _ _ hnd), ?_⟩
    intro t
    rw [htt' t]
    by_cases ht : t = q.topic
    · subst ht
      rw [pyBump_lookup_self]
      have hta : topicAccs (q :: rest) q.topic = accVal q :: topicAccs rest q.topic := by
        rw [topicAccs_cons]
        exact if_pos rfl
      have hcont2 : ((q :: rest).map (fun x => x.topic)).contains q.topic = true := by
        simp
      rw [hta, haccv, hcont2]
      simp only [Option.isSome_some, Bool.true_or, Option.getD_some, Bool.or_true, if_true]
      congr 1
      simp
    · rw [pyBump_lookup_ne _ _ _ _ _ ht]
      have hta : topicAccs (q :: rest) t = topicAccs rest t := by
        rw [topicAccs_cons]
        exact if_neg (fun he => ht he.symm)
      have hcont : ((q :: rest).map (fun x => x.topic)).contains t
          = ((rest).map (fun x => x.topic)).contains t := by
        have hbe : (t == q.topic) = false := by simp [ht]
        rw [List.map_cons, List.contains_cons, hbe]
        simp
      rw [hta, hcont]

/-- Claim C3: on a non-empty history whose accuracies all parse, the
aggregate maps each topic (compared by exact string equality) to the
arithmetic mean of its submissions' accuracies, and the weak areas are
exactly the topics whose mean accuracy is strictly below 0.6. -/
theorem c3_aggregate_topic_means (hist : List QuizSubmission) (hne : hist ≠ [])
    (hall : ∀ q ∈ hist, (parseAccuracy q.accuracy).isOk = true) :
    ∃ perf, analyze_student_performance hist = .ok perf
      ∧ (∀ t, perf.topic_wise_accuracy.lookup t =
          if (hist.map (fun q => q.topic)).contains t
          then some ((topicAccs hist t).sum / ((topicAccs hist t).length : ℚ))
          else none)
      ∧ (∀ t, t ∈ perf.weak_areas ↔
          ∃ m, perf.topic_wise_accuracy.lookup t = some m ∧ m < 3 / 5) := by
  obtain ⟨tpa, hatp, hnd, hlk⟩ := atp_spec hist hall
  have hallS : ∀ q ∈ sortedByDate hist, (parseAccuracy q.accuracy).isOk = true := by
    intro q hqmem
    unfold sortedByDate at hqmem
    exact hall q (List.mem_mergeSort.mp hqmem)
  obtain ⟨trends, hcit, hndT, hlkT⟩ := citLoop_spec (sortedByDate hist) [] hallS
  cases hist with
  | nil => exact absurd rfl hne
  | cons q0 rest =>
    refine ⟨{ user_id := q0.user_id, quiz_history := q0 :: rest,
              topic_wise_accuracy := tpa,
              weak_areas := identify_weak_areas tpa,
              improvement_trends := trends,
              predicted_rank := Option.none,
              recommended_colleges := Option.none }, ?_, ?_, ?_⟩
    · simp only [analyze_student_performance]
      rw [hatp]
      unfold calculate_improvement_trends
      rw [hcit]
    · intro t
      exact hlk t
    · intro t
      show t ∈ identify_weak_areas tpa ↔ _
      unfold identify_weak_areas
      constructor
      · intro hmem
        obtain ⟨p, hp, hfst⟩ := List.mem_map.mp hmem
        obtain ⟨hpmem, hplt⟩ := List.mem_filter.mp hp
        obtain ⟨k, m⟩ := p
        simp only at hfst
        subst hfst
        refine ⟨m, lookup_eq_some_of_mem_nodup hnd hpmem, ?_⟩
        exact of_decide_eq_true hplt
      · rintro ⟨m, hlkm, hlt⟩
        have hmem2 := mem_of_lookup_eq_some hlkm
        exact List.mem_map.mpr ⟨(t, m), List.mem_filter.mpr ⟨hmem2,
          decide_eq_true hlt⟩, rfl⟩

/-- The spec's concrete scenario history: two Physiology submissions
and one Genetics submission. -/
def cHistW : List QuizSubmission :=
  [mkQuiz "Physiology" "80%" "40" cDt1,
   mkQuiz "Physiology" "60%" "30" cDt2,
   mkQuiz "Genetics" "30%" "10" cDt1]

/-- Witness for c3_aggregate_topic_means on the concrete scenario. -/
theorem c3_aggregate_topic_means_witness :
    (cHistW ≠ [] ∧ ∀ q ∈ cHistW, (parseAccuracy q.accuracy).isOk = true)
    ∧ ∃ perf, analyze_student_performance cHistW = .ok perf
      ∧ (∀ t, perf.topic_wise_accuracy.lookup t =
          if (cHistW.map (fun q => q.topic)).contains t
          then some ((topicAccs cHistW t).sum / ((topicAccs cHistW t).length : ℚ))
          else none)
      ∧ (∀ t, t ∈ perf.weak_areas ↔
          ∃ m, perf.topic_wise_accuracy.lookup t = some m ∧ m < 3 / 5) :=
  ⟨⟨by decide, by decide⟩, c3_aggregate_topic_means cHistW (by decide) (by decide)⟩

theorem dtLe_trans : ∀ a b c : QuizSubmission, dtLe a b → dtLe b c → dtLe a c := by
  intro a b c hab hbc
  simp only [dtLe, decide_eq_true_eq] at *
  exact le_trans hab hbc

theorem dtLe_total : ∀ a b : QuizSubmission, dtLe a b || dtLe b a := by
  intro a b
  simp only [dtLe]
  rcases Nat.le_total a.submitted_at.key b.submitted_at.key with h | h
  · simp [h]
  · simp [h]

theorem contains_eq_of_perm (l1 l2 : List String) (h : l1.Perm l2) (t : String) :
    l1.contains t = l2.contains t := by
  rw [Bool.eq_iff_iff]
  constructor
  · intro hc
    exact List.elem_iff.mpr (h.mem_iff.mp (List.elem_iff.mp hc))
  · intro hc
    exact List.elem_iff.mpr (h.mem_iff.mpr (List.elem_iff.mp hc))

/-- Stability of the date sort: the submissions carrying any fixed sort
key keep their original relative order (here: the filtered sublists are
equal, which pins the tie order to the input order). -/
theorem sortedByDate_filter_key (hist : List QuizSubmission) (d : Nat) :
    (sortedByDate hist).filter (fun q => q.submitted_at.key == d)
      = hist.filter (fun q => q.submitted_at.key == d) := by
  unfold sortedByDate
  have hkeys : ∀ x ∈ hist.filter (fun q => q.submitted_at.key == d),
      x.submitted_at.key = d := by
    intro x hx
    have := List.of_mem_filter hx
    simpa using this
  have hpw : (hist.filter (fun q => q.submitted_at.key == d)).Pairwise
      (fun a b => dtLe a b = true) := by
    apply List.pairwise_of_forall_mem_list
    intro a ha b hb
    have h1 := hkeys a ha
    have h2 := hkeys b hb
    simp [dtLe, h1, h2]
  have hsub : List.Sublist (hist.filter (fun q => q.submitted_at.key == d))
      (hist.mergeSort dtLe) :=
    List.sublist_mergeSort dtLe_trans dtLe_total hpw (List.filter_sublist _)
  have hsub2 : List.Sublist (hist.filter (fun q => q.submitted_at.key == d))
      ((hist.mergeSort dtLe).filter (fun q => q.submitted_at.key == d)) := by
    have h2 := hsub.filter (fun q => q.submitted_at.key == d)
    rw [List.filter_filter] at h2
    simpa using h2
  have hperm := List.mergeSort_perm hist dtLe
  have hlen : ((hist.mergeSort dtLe).filter (fun q => q.submitted_at.key == d)).length
      = (hist.filter (fun q => q.submitted_at.key == d)).length :=
    (hperm.filter (fun q => q.submitted_at.key == d)).length_eq
  exact (hsub2.eq_of_length hlen.symm).symm

/-- Claim C4: every topic of topic_wise_accuracy is a key of the trend
mapping; each trend is the accuracy sequence of that topic's submissions
taken from the date-sorted history, where the sort is ascending in the
submitted_at key, a permutation of the input, and stable (ties keep the
original input order); and the trend length equals the topic's
submission count (so a single-submission topic has a length-1 trend and
is included). -/
theorem c4_trends_chronological (hist : List QuizSubmission) (hne : hist ≠ [])
    (hall : ∀ q ∈ hist, (parseAccuracy q.accuracy).isOk = true) :
    ∃ perf, analyze_student_performance hist = .ok perf
      ∧ (∀ t, (perf.topic_wise_accuracy.lookup t).isSome = true →
          (perf.improvement_trends.lookup t).isSome = true)
      ∧ (∀ t, perf.improvement_trends.lookup t =
          if ((sortedByDate hist).map (fun q => q.topic)).contains t
          then some (topicAccs (sortedByDate hist) t) else none)
      ∧ List.Pairwise (fun a b => a.submitted_at.key ≤ b.submitted_at.key) (sortedByDate hist)
      ∧ (sortedByDate hist).Perm hist
      ∧ (∀ d : Nat, (sortedByDate hist).filter (fun q => q.submitted_at.key == d)
            = hist.filter (fun q => q.submitted_at.key == d))
      ∧ (∀ t, (topicAccs (sortedByDate hist) t).length
            = (hist.filter (fun q => q.topic == t)).length) := by
  obtain ⟨tpa, hatp, hnd, hlk⟩ := atp_spec hist hall
  have hallS : ∀ q ∈ sortedByDate hist, (parseAccuracy q.accuracy).isOk = true := by
    intro q hqmem
    unfold sortedByDate at hqmem
    exact hall q (List.mem_mergeSort.mp hqmem)
  obtain ⟨trends, hcit, hndT, hlkT⟩ := citLoop_spec (sortedByDate hist) [] hallS
  have hperm : (sortedByDate hist).Perm hist := List.mergeSort_perm hist dtLe
  have hlkT' : ∀ t, trends.lookup t =
      if ((sortedByDate hist).map (fun q => q.topic)).contains t
      then some (topicAccs (sortedByDate hist) t) else none := by
    intro t
    rw [hlkT t]
    cases hc : ((sortedByDate hist).map (fun q => q.topic)).contains t
    · simp [List.lookup, hc]
    · simp [List.lookup, hc]
  cases hist with
  | nil => exact absurd rfl hne
  | cons q0 rest =>
    refine ⟨{ user_id := q0.user_id, quiz_history := q0 :: rest,
              topic_wise_accuracy := tpa,
              weak_areas := identify_weak_areas tpa,
              improvement_trends := trends,
              predicted_rank := Option.none,
              recommended_colleges := Option.none }, ?_, ?_, ?_, ?_, ?_, ?_, ?_⟩
    · simp only [analyze_student_performance]
      rw [hatp]
      unfold calculate_improvement_trends
      rw [hcit]
    · intro t hsome
      show (trends.lookup t).isSome = true
      rw [hlk t] at hsome
      cases hc : ((q0 :: rest).map (fun q => q.topic)).contains t with
      | false => rw [hc] at hsome; simp at hsome
      | true =>
        rw [hlkT' t]
        have hcS : (((sortedByDate (q0 :: rest)).map (fun q => q.topic)).contains t) = true := by
          rw [contains_eq_of_perm _ _ (hperm.map (fun q => q.topic)) t]
          exact hc
        rw [hcS]
        simp
    · intro t
      exact hlkT' t
    · exact (List.sorted_mergeSort dtLe_trans dtLe_total (q0 :: rest)).imp
        (fun h => of_decide_eq_true h)
    · exact hperm
    · intro d
      exact sortedByDate_filter_key (q0 :: rest) d
    · intro t
      unfold topicAccs
      rw [List.length_map]
      exact (hperm.filter (fun q => q.topic == t)).length_eq

/-- Witness for c4_trends_chronological on the concrete scenario. -/
theorem c4_trends_chronological_witness :
    (cHistW ≠ [] ∧ ∀ q ∈ cHistW, (parseAccuracy q.accuracy).isOk = true)
    ∧ ∃ perf, analyze_student_performance cHistW = .ok perf
      ∧ (∀ t, (perf.topic_wise_accuracy.lookup t).isSome = true →
          (perf.improvement_trends.lookup t).isSome = true)
      ∧ (∀ t, perf.improvement_trends.lookup t =
          if ((sortedByDate cHistW).map (fun q => q.topic)).contains t
          then some (topicAccs (sortedByDate cHistW) t) else none)
      ∧ List.Pairwise (fun a b => a.submitted_at.key ≤ b.submitted_at.key) (sortedByDate cHistW)
      ∧ (sortedByDate cHistW).Perm cHistW
      ∧ (∀ d : Nat, (sortedByDate cHistW).filter (fun q => q.submitted_at.key == d)
            = cHistW.filter (fun q => q.submitted_at.key == d))
      ∧ (∀ t, (topicAccs (sortedByDate cHistW) t).length
            = (cHistW.filter (fun q => q.topic == t)).length) :=
  ⟨⟨by decide, by decide⟩, c4_trends_chronological cHistW (by decide) (by decide)⟩
